import Mathlib

/-!
Verification of the fun-hub-backend room registry and socket event handlers.

The development shallowly embeds the two core source files:

* `src/services/gameRoomService.ts` — the in-memory room registry
  (`GameRoomService` backed by a JS `Map<string, GameRoom>`, modelled here as
  an id-keyed list of `GameRoom` in insertion order, with the `Map` update
  semantics made explicit);
* `src/config/socket.ts` — the per-connection socket.io event handlers
  (`join_room`, `send_message`, `leave_room`, `game_start`, `game_move`,
  `game_reset`, `disconnect`).

JS specifics are modelled explicitly: a client-supplied field that may be
absent is an `Option String`, and the `!x` falsiness check on it accepts both
`none` (undefined) and the empty string (`truthyStr`); template-literal
interpolation of a possibly-undefined value is `jsShow`; `Date` timestamps
are a `Nat` clock carried in the server state; socket.io's per-socket room
set (`socket.rooms`, which always starts as the singleton of the socket's own
id) is an insertion-ordered duplicate-free list.  Outbound `emit` calls are
collected as a list of `Emission`s: a target (`socket.emit`, `io.to(x)`,
`socket.to(x)`) paired with the event payload.
-/

/-- A player entry, as in `gameRoomService.ts` (`interface Player`).
`joinedAt` is the `Date` timestamp, modelled as a `Nat` clock value. -/
structure Player where
  socketId : String
  name : String
  joinedAt : Nat
deriving Repr, DecidableEq

/-- A room, as in `gameRoomService.ts` (`interface GameRoom`).  `gameState`
is opaque and never written by `socket.ts`; it is `none` (JS `null`) at
creation. -/
structure GameRoom where
  id : String
  players : List Player
  gameState : Option String
  createdAt : Nat
deriving Repr, DecidableEq

/-!  ## The room registry (`GameRoomService`)

`private rooms: Map<string, GameRoom>` is modelled as a `List GameRoom` in
key-insertion order; `GameRoom.id` is the key.  `Map.set` replaces an
existing entry in place and otherwise appends, `Map.delete` drops the entry,
`Map.get` finds the entry by key.  (A JS `Map` can never hold two entries
with the same key; states with duplicate ids are unreachable, and the
theorems that need key uniqueness assume `RegistryWF`.) -/

/-- `this.rooms.get(roomId)` — the entry keyed `roomId`, if any. -/
def findRoom (rs : List GameRoom) (roomId : String) : Option GameRoom :=
  rs.find? (fun r => r.id == roomId)

/-- `roomExists(roomId)`. -/
def roomExists (rs : List GameRoom) (roomId : String) : Bool :=
  (findRoom rs roomId).isSome

/-- `Map.set` semantics: replace the entry with the same key in place,
otherwise append. -/
def setRoom (rs : List GameRoom) (room : GameRoom) : List GameRoom :=
  if rs.any (fun r => r.id == room.id) then
    rs.map (fun r => if r.id == room.id then room else r)
  else
    rs ++ [room]

/-- `createRoom(roomId)`: store a fresh room with no players, `null` game
state and the current timestamp. -/
def createRoom (rs : List GameRoom) (roomId : String) (now : Nat) : List GameRoom :=
  setRoom rs { id := roomId, players := [], gameState := none, createdAt := now }

/-- `deleteRoom(roomId)`: `Map.delete`.  (The `boolean` return value is
ignored by every caller in `socket.ts`, so only the state is modelled.) -/
def deleteRoom (rs : List GameRoom) (roomId : String) : List GameRoom :=
  rs.filter (fun r => !(r.id == roomId))

/-- `addPlayerToRoom(roomId, player)`: `room.players.push(player)` on the
entry keyed `roomId`; no room, no change.  (The `boolean` return value is
ignored by every caller.) -/
def addPlayerToRoom (rs : List GameRoom) (roomId : String) (p : Player) : List GameRoom :=
  rs.map (fun r => if r.id == roomId then { r with players := r.players ++ [p] } else r)

/-- `players.findIndex(p => p.socketId === socketId)` followed by
`players.splice(index, 1)`: remove the first entry with the given socket id,
or leave the list unchanged when there is none. -/
def removeFirstPlayer (ps : List Player) (socketId : String) : List Player :=
  match ps with
  | [] => []
  | p :: rest =>
    if p.socketId == socketId then rest else p :: removeFirstPlayer rest socketId

/-- `removePlayerFromRoom(roomId, socketId)`.  (Return value ignored by
every caller, so only the state is modelled.) -/
def removePlayerFromRoom (rs : List GameRoom) (roomId : String) (socketId : String) :
    List GameRoom :=
  rs.map (fun r =>
    if r.id == roomId then { r with players := removeFirstPlayer r.players socketId } else r)

/-- `getRoomPlayers(roomId)`: the room's player list, or `[]` when the room
is absent. -/
def getRoomPlayers (rs : List GameRoom) (roomId : String) : List Player :=
  match findRoom rs roomId with
  | some r => r.players
  | none => []

/-!  ## Socket.io transport state

Each socket carries `socket.rooms`, a `Set<string>` that initially holds the
socket's own id and then the groups it joined, in insertion order.  The
whole transport side is an association list from socket id to that set. -/

/-- The global server state: the registry (`gameRoomService.rooms`), every
socket's `socket.rooms` set, and the clock from which `new Date()` reads. -/
structure ServerState where
  rooms : List GameRoom
  sockRooms : List (String × List String)
  clock : Nat
deriving Repr, DecidableEq

/-- The `socket.rooms` set of socket `sid` (insertion-ordered, no
duplicates).  A socket with no recorded entry has just connected:
`socket.rooms = Set([socket.id])`. -/
def roomsOf (st : ServerState) (sid : String) : List String :=
  match st.sockRooms.find? (fun e => e.1 == sid) with
  | some e => e.2
  | none => [sid]

/-- Replace (or insert) socket `sid`'s `socket.rooms` set. -/
def setRoomsOf (m : List (String × List String)) (sid : String) (rs : List String) :
    List (String × List String) :=
  if m.any (fun e => e.1 == sid) then
    m.map (fun e => if e.1 == sid then (sid, rs) else e)
  else
    m ++ [(sid, rs)]

/-- `socket.join(roomId)`: add the group to the socket's set (a `Set`, so a
no-op when already present). -/
def joinGroup (st : ServerState) (sid roomId : String) : ServerState :=
  let sr := roomsOf st sid
  if sr.contains roomId then st
  else { st with sockRooms := setRoomsOf st.sockRooms sid (sr ++ [roomId]) }

/-- `socket.leave(roomId)`: remove the group from the socket's set. -/
def leaveGroup (st : ServerState) (sid roomId : String) : ServerState :=
  { st with sockRooms := setRoomsOf st.sockRooms sid ((roomsOf st sid).filter (fun r => !(r == roomId))) }

/-!  ## Wire events -/

/-- The roster entries built by the `game_start` handler
(`{name, socketId, symbol}`). -/
structure GamePlayer where
  name : String
  socketId : String
  symbol : String
deriving Repr, DecidableEq

/-- Where an `emit` is addressed: `socket.emit(...)` goes to the one
connection; `io.to(x).emit(...)` goes to every member of group `x` (when `x`
is a socket id this is that socket's personal group); `socket.to(x)` is the
group except the sender. -/
inductive Target where
  | toSocket (sid : String)
  | toRoom (roomId : String)
  | toRoomExcept (roomId : String) (sender : String)
deriving Repr, DecidableEq

/-- The outbound event payloads of `socket.ts`, with the exact field sets
sent on the wire.  Fields copied from unvalidated client input are
`Option String` (JS `undefined` when missing). -/
inductive OutEvent where
  | connectionResponse (status : String) (socketId : String) (message : String)
  | joinRoomResponse (status : String) (roomId : Option String)
      (players : Option (List Player)) (message : String)
  | playerJoined (roomId : String) (players : List Player) (message : String)
      (playerCount : Nat)
  | messageResponse (status : String) (message : String)
  | receiveMessage (senderId : String) (senderName : Option String) (content : String)
      (timestamp : Nat) (roomId : String)
  | leaveRoomResponse (status : String) (message : String)
  | playerLeft (roomId : String) (players : List Player) (message : String)
      (playerCount : Nat)
  | gameStart (gameType : String) (players : List GamePlayer) (playerSymbol : String)
  | gameMove (board : String) (playerSymbol : Option String) (playerName : Option String)
  | gameReset (playerName : Option String)
deriving Repr, DecidableEq

/-- One `emit` call: its addressing plus its payload. -/
abbrev Emission := Target × OutEvent

/-- Whether an emission is delivered to connection `sid`, given the
transport group state at emission time: `socket.emit` reaches exactly its
socket, `io.to(g)` reaches the members of group `g`, `socket.to(g)` the
members except the sender. -/
def deliveredTo (st : ServerState) (em : Emission) (sid : String) : Bool :=
  match em.1 with
  | Target.toSocket s => s == sid
  | Target.toRoom g => (roomsOf st sid).contains g
  | Target.toRoomExcept g sender => (roomsOf st sid).contains g && !(sender == sid)

/-- JS falsiness of a client-supplied string field: `undefined` and `""` are
falsy.  `truthyStr x = some s` exactly when the field passed a `!x` check,
with `s` its value. -/
def truthyStr : Option String → Option String
  | none => none
  | some s => if s == "" then none else some s

/-- Template-literal rendering of a possibly-undefined string, as in
JS backtick interpolation: an absent value prints as "undefined". -/
def jsShow : Option String → String
  | none => "undefined"
  | some s => s

/-!  ## The event handlers of `socket.ts`

Each handler takes the server state and the acting socket's id plus the
fields of the inbound `data` object, and returns the new state together
with the list of `emit` calls, in program order. -/

/-- The `io.on('connection', ...)` prologue: record the fresh socket's
`socket.rooms = Set([socket.id])` and send `connection_response`. -/
def handleConnect (st : ServerState) (sid : String) : ServerState × List Emission :=
  ({ st with sockRooms := setRoomsOf st.sockRooms sid [sid] },
   [(Target.toSocket sid,
     OutEvent.connectionResponse "connected" sid "Successfully connected to gaming server")])

/-- The `join_room` handler. -/
def handleJoinRoom (st : ServerState) (sid : String) (roomId? playerName? : Option String) :
    ServerState × List Emission :=
  match truthyStr roomId?, truthyStr playerName? with
  | some roomId, some playerName =>
    -- Leave previous room if exists (socket.rooms.size > 1)
    let sr := roomsOf st sid
    let st1 :=
      if sr.length > 1 then
        match sr.find? (fun room => !(room == sid)) with
        | some previousRoom => leaveGroup st sid previousRoom
        | none => st
      else st
    -- Create or get room
    let st2 :=
      if roomExists st1.rooms roomId then st1
      else { st1 with rooms := createRoom st1.rooms roomId st1.clock }
    -- Join socket to room
    let st3 := joinGroup st2 sid roomId
    -- Add player to room
    let st4 := { st3 with
      rooms := addPlayerToRoom st3.rooms roomId
        { socketId := sid, name := playerName, joinedAt := st3.clock } }
    let players := getRoomPlayers st4.rooms roomId
    (st4,
     [(Target.toRoom roomId,
       OutEvent.playerJoined roomId players (playerName ++ " has joined the room")
         players.length),
      (Target.toSocket sid,
       OutEvent.joinRoomResponse "success" (some roomId) (some players)
         ("You have joined room " ++ roomId))])
  | _, _ =>
    (st,
     [(Target.toSocket sid,
       OutEvent.joinRoomResponse "error" none none "Room ID and player name are required")])

/-- The `send_message` handler.  `playerName` is forwarded unvalidated. -/
def handleSendMessage (st : ServerState) (sid : String)
    (roomId? playerName? message? : Option String) : ServerState × List Emission :=
  match truthyStr roomId?, truthyStr message? with
  | some roomId, some message =>
    if roomExists st.rooms roomId then
      (st,
       [(Target.toRoom roomId,
         OutEvent.receiveMessage sid playerName? message st.clock roomId)])
    else
      (st,
       [(Target.toSocket sid,
         OutEvent.messageResponse "error" ("Room " ++ roomId ++ " does not exist"))])
  | _, _ =>
    (st,
     [(Target.toSocket sid,
       OutEvent.messageResponse "error" "Room ID and message content are required")])

/-- The `leave_room` handler. -/
def handleLeaveRoom (st : ServerState) (sid : String) (roomId? playerName? : Option String) :
    ServerState × List Emission :=
  match truthyStr roomId? with
  | none =>
    (st, [(Target.toSocket sid, OutEvent.leaveRoomResponse "error" "Room ID is required")])
  | some roomId =>
    if roomExists st.rooms roomId then
      let st1 := leaveGroup st sid roomId
      let st2 := { st1 with rooms := removePlayerFromRoom st1.rooms roomId sid }
      let players := getRoomPlayers st2.rooms roomId
      if players.length > 0 then
        (st2,
         [(Target.toRoom roomId,
           OutEvent.playerLeft roomId players (jsShow playerName? ++ " has left the room")
             players.length),
          (Target.toSocket sid,
           OutEvent.leaveRoomResponse "success" ("You have left room " ++ roomId))])
      else
        ({ st2 with rooms := deleteRoom st2.rooms roomId },
         [(Target.toSocket sid,
           OutEvent.leaveRoomResponse "success" ("You have left room " ++ roomId))])
    else
      (st,
       [(Target.toSocket sid,
         OutEvent.leaveRoomResponse "error" ("Room " ++ roomId ++ " does not exist"))])

/-- The roster built by `game_start`:
`players.map((p, idx) => ({name, socketId, symbol: idx === 0 ? 'X' : 'O'}))`. -/
def rosterOf (ps : List Player) : List GamePlayer :=
  ps.mapIdx (fun idx p =>
    { name := p.name, socketId := p.socketId, symbol := if idx == 0 then "X" else "O" })

/-- The `game_start` handler.  Note that it emits only to
`players[0].socketId` and `players[1].socketId` (matching on two leading
players is the `players.length < 2` early return followed by the two
indexed accesses). -/
def handleGameStart (st : ServerState) (sid : String)
    (roomId? playerName? gameType? : Option String) : ServerState × List Emission :=
  match truthyStr roomId?, truthyStr gameType? with
  | some roomId, some gameType =>
    match getRoomPlayers st.rooms roomId with
    | p0 :: p1 :: rest =>
      let roster := rosterOf (p0 :: p1 :: rest)
      (st,
       [(Target.toRoom p0.socketId, OutEvent.gameStart gameType roster "X"),
        (Target.toRoom p1.socketId, OutEvent.gameStart gameType roster "O")])
    | _ => (st, [])
  | _, _ => (st, [])

/-- The `game_move` handler: relay to the room except the sender. -/
def handleGameMove (st : ServerState) (sid : String)
    (roomId? playerName? board? playerSymbol? : Option String) : ServerState × List Emission :=
  match truthyStr roomId?, truthyStr board? with
  | some roomId, some board =>
    (st,
     [(Target.toRoomExcept roomId sid, OutEvent.gameMove board playerSymbol? playerName?)])
  | _, _ => (st, [])

/-- The `game_reset` handler: relay to the room except the sender. -/
def handleGameReset (st : ServerState) (sid : String) (roomId? playerName? : Option String) :
    ServerState × List Emission :=
  match truthyStr roomId? with
  | some roomId =>
    (st, [(Target.toRoomExcept roomId sid, OutEvent.gameReset playerName?)])
  | none => (st, [])

/-- The body of the `disconnect` handler's `allRooms.forEach(...)`: iterate
over the snapshot taken by `getAllRooms()` while mutating the live
registry.  (Each snapshot entry's id occurs once in the registry, so the
entry read in iteration `i` is still untouched when its turn comes.) -/
def disconnectLoop (sid : String) (snapshot : List GameRoom) (st : ServerState)
    (ems : List Emission) : ServerState × List Emission :=
  match snapshot with
  | [] => (st, ems)
  | room :: rest =>
    match room.players.find? (fun p => p.socketId == sid) with
    | some player =>
      let rooms1 := removePlayerFromRoom st.rooms room.id sid
      let remainingPlayers := getRoomPlayers rooms1 room.id
      if remainingPlayers.length > 0 then
        disconnectLoop sid rest { st with rooms := rooms1 }
          (ems ++ [(Target.toRoom room.id,
            OutEvent.playerLeft room.id remainingPlayers
              (player.name ++ " has left the room") remainingPlayers.length)])
      else
        disconnectLoop sid rest { st with rooms := deleteRoom rooms1 room.id } ems
    | none => disconnectLoop sid rest st ems

/-- The `disconnect` handler: `getAllRooms()` snapshot, then the per-room
remove/notify-or-delete loop. -/
def handleDisconnect (st : ServerState) (sid : String) : ServerState × List Emission :=
  disconnectLoop sid st.rooms st []

/-!  ## Event sequences -/

/-- The inbound events a connection can trigger, tagged with the acting
socket id.  Client-supplied fields are `Option String`. -/
inductive InEvent where
  | connect (sid : String)
  | joinRoom (sid : String) (roomId playerName : Option String)
  | sendMessage (sid : String) (roomId playerName message : Option String)
  | leaveRoom (sid : String) (roomId playerName : Option String)
  | gameStart (sid : String) (roomId playerName gameType : Option String)
  | gameMove (sid : String) (roomId playerName board playerSymbol : Option String)
  | gameReset (sid : String) (roomId playerName : Option String)
  | disconnect (sid : String)
deriving Repr, DecidableEq

/-- Dispatch one inbound event to its handler.  The clock ticks once after
each handled event, so distinct events carry distinct `new Date()` values
while all `Date` reads within one handler agree. -/
def step (st : ServerState) (ev : InEvent) : ServerState × List Emission :=
  let r :=
    match ev with
    | InEvent.connect sid => handleConnect st sid
    | InEvent.joinRoom sid roomId playerName => handleJoinRoom st sid roomId playerName
    | InEvent.sendMessage sid roomId playerName message =>
      handleSendMessage st sid roomId playerName message
    | InEvent.leaveRoom sid roomId playerName => handleLeaveRoom st sid roomId playerName
    | InEvent.gameStart sid roomId playerName gameType =>
      handleGameStart st sid roomId playerName gameType
    | InEvent.gameMove sid roomId playerName board playerSymbol =>
      handleGameMove st sid roomId playerName board playerSymbol
    | InEvent.gameReset sid roomId playerName => handleGameReset st sid roomId playerName
    | InEvent.disconnect sid => handleDisconnect st sid
  ({ r.1 with clock := r.1.clock + 1 }, r.2)

/-- The state at process start: no rooms, no sockets. -/
def init : ServerState := { rooms := [], sockRooms := [], clock := 0 }

/-- The server state after handling a sequence of events from state `st`. -/
def run (st : ServerState) (evs : List InEvent) : ServerState :=
  evs.foldl (fun s e => (step s e).1) st

/-!  ## Registry well-formedness and invariants -/

/-- Key uniqueness of the registry: a JS `Map` never holds two entries with
the same key, so the id-keyed list representation is well formed exactly
when the ids are pairwise distinct. -/
def RegistryWF (rs : List GameRoom) : Prop :=
  (rs.map (fun r => r.id)).Nodup

instance (rs : List GameRoom) : Decidable (RegistryWF rs) := by
  unfold RegistryWF; infer_instance

/-- The registry invariant of the spec: every stored room has at least one
player, and the key structure is that of a `Map`. -/
def RegistryInv (rs : List GameRoom) : Prop :=
  (∀ r ∈ rs, r.players ≠ []) ∧ RegistryWF rs

/-- What the `disconnect` handler does to the registry, stated room by
room: the first player entry matching the disconnecting socket is removed
from each room that has one; a room whose player list becomes empty is
dropped from the registry; every other room is kept unchanged. -/
def disconnectSpec (rs : List GameRoom) (sid : String) : List GameRoom :=
  rs.filterMap (fun room =>
    match room.players.find? (fun p => p.socketId == sid) with
    | some _ =>
      let remaining := removeFirstPlayer room.players sid
      if remaining.length > 0 then some { room with players := remaining } else none
    | none => some room)

/-- The broadcasts of the `disconnect` handler, stated room by room: each
room that contained the disconnecting socket and still has players after
the removal gets one `player_left` broadcast carrying the updated roster
and the updated player count. -/
def disconnectEmits (rs : List GameRoom) (sid : String) : List Emission :=
  rs.filterMap (fun room =>
    match room.players.find? (fun p => p.socketId == sid) with
    | some player =>
      let remaining := removeFirstPlayer room.players sid
      if remaining.length > 0 then
        some (Target.toRoom room.id,
          OutEvent.playerLeft room.id remaining (player.name ++ " has left the room")
            remaining.length)
      else none
    | none => none)

/-!  ## General lemmas -/

theorem truthyStr_some {s : String} (h : s ≠ "") : truthyStr (some s) = some s := by
  simp [truthyStr, h]

theorem map_eq_self_of_eq {α : Type} {l : List α} {f : α → α} (h : ∀ a ∈ l, f a = a) :
    l.map f = l := by
  induction l with
  | nil => rfl
  | cons a t ih =>
    simp only [List.map_cons, h a (List.mem_cons_self a t)]
    rw [ih (fun x hx => h x (List.mem_cons_of_mem a hx))]

theorem map_congr_mem {α β : Type} {l : List α} {f g : α → β} (h : ∀ a ∈ l, f a = g a) :
    l.map f = l.map g := by
  induction l with
  | nil => rfl
  | cons a t ih =>
    simp only [List.map_cons, h a (List.mem_cons_self a t)]
    rw [ih (fun x hx => h x (List.mem_cons_of_mem a hx))]

theorem removeFirstPlayer_of_absent {ps : List Player} {sid : String}
    (h : ∀ p ∈ ps, p.socketId ≠ sid) : removeFirstPlayer ps sid = ps := by
  induction ps with
  | nil => rfl
  | cons p t ih =>
    have hp : (p.socketId == sid) = false := by
      simpa using h p (List.mem_cons_self p t)
    simp only [removeFirstPlayer, hp, Bool.false_eq_true, if_false]
    rw [ih (fun x hx => h x (List.mem_cons_of_mem p hx))]

theorem ids_addPlayerToRoom (rs : List GameRoom) (rid : String) (p : Player) :
    (addPlayerToRoom rs rid p).map (fun r => r.id) = rs.map (fun r => r.id) := by
  unfold addPlayerToRoom
  rw [List.map_map]
  refine map_congr_mem (fun r _ => ?_)
  by_cases h : r.id = rid <;> simp [h]

theorem ids_removePlayerFromRoom (rs : List GameRoom) (rid sid : String) :
    (removePlayerFromRoom rs rid sid).map (fun r => r.id) = rs.map (fun r => r.id) := by
  unfold removePlayerFromRoom
  rw [List.map_map]
  refine map_congr_mem (fun r _ => ?_)
  by_cases h : r.id = rid <;> simp [h]

theorem roomExists_false_iff (rs : List GameRoom) (rid : String) :
    roomExists rs rid = false ↔ ∀ r ∈ rs, r.id ≠ rid := by
  unfold roomExists findRoom
  cases hfind : rs.find? (fun r => r.id == rid) with
  | none =>
    simp only [Option.isSome_none, true_iff]
    intro r hr
    have := List.find?_eq_none.mp hfind r hr
    simpa using this
  | some r =>
    simp only [Option.isSome_some, Bool.true_eq_false, false_iff, not_forall]
    exact ⟨r, List.mem_of_find?_eq_some hfind, by simpa using List.find?_some hfind⟩

theorem roomExists_true_iff (rs : List GameRoom) (rid : String) :
    roomExists rs rid = true ↔ ∃ r ∈ rs, r.id = rid := by
  unfold roomExists findRoom
  rw [List.find?_isSome]
  simp

theorem findRoom_eq_some_of_mem {rs : List GameRoom} {r : GameRoom} {rid : String}
    (hwf : RegistryWF rs) (hr : r ∈ rs) (hid : r.id = rid) :
    findRoom rs rid = some r := by
  induction rs with
  | nil => cases hr
  | cons x t ih =>
    have hwf' : x.id ∉ t.map (fun r => r.id) ∧ RegistryWF t := by
      simpa [RegistryWF, List.nodup_cons] using hwf
    rcases List.mem_cons.mp hr with h | h
    · subst h
      unfold findRoom
      exact List.find?_cons_of_pos _ (by simpa using hid)
    · have hx : (x.id == rid) = false := by
        rw [beq_eq_false_iff_ne]
        intro hxe
        apply hwf'.1
        have hmem : r.id ∈ t.map (fun r => r.id) := List.mem_map_of_mem _ h
        rw [hid] at hmem
        rw [hxe]
        exact hmem
      unfold findRoom
      rw [List.find?_cons_of_neg _ (by simp [hx])]
      exact ih hwf'.2 h

theorem getRoomPlayers_eq_of_mem {rs : List GameRoom} {r : GameRoom} {rid : String}
    (hwf : RegistryWF rs) (hr : r ∈ rs) (hid : r.id = rid) :
    getRoomPlayers rs rid = r.players := by
  unfold getRoomPlayers
  rw [findRoom_eq_some_of_mem hwf hr hid]

theorem findRoom_removePlayer (rs : List GameRoom) (rid sid : String) :
    findRoom (removePlayerFromRoom rs rid sid) rid =
      (findRoom rs rid).map (fun r => { r with players := removeFirstPlayer r.players sid }) := by
  induction rs with
  | nil => rfl
  | cons x t ih =>
    unfold removePlayerFromRoom at *
    by_cases h : x.id = rid
    · unfold findRoom
      rw [List.map_cons, if_pos (by simpa using h)]
      rw [List.find?_cons_of_pos _ (by simpa using h), List.find?_cons_of_pos _ (by simpa using h)]
      rfl
    · unfold findRoom at *
      rw [List.map_cons, if_neg (by simpa using h)]
      rw [List.find?_cons_of_neg _ (by simpa using h), List.find?_cons_of_neg _ (by simpa using h)]
      exact ih

theorem getRoomPlayers_removePlayer (rs : List GameRoom) (rid sid : String) :
    getRoomPlayers (removePlayerFromRoom rs rid sid) rid =
      removeFirstPlayer (getRoomPlayers rs rid) sid := by
  unfold getRoomPlayers
  rw [findRoom_removePlayer]
  cases findRoom rs rid with
  | none => rfl
  | some r => rfl

theorem removePlayerFromRoom_of_absent {rs : List GameRoom} {rid sid : String}
    (hwf : RegistryWF rs) {r : GameRoom} (hfind : findRoom rs rid = some r)
    (habs : ∀ p ∈ r.players, p.socketId ≠ sid) :
    removePlayerFromRoom rs rid sid = rs := by
  unfold removePlayerFromRoom
  apply map_eq_self_of_eq
  intro a ha
  by_cases h : a.id = rid
  · have hae : a = r := by
      have h2 := findRoom_eq_some_of_mem hwf ha h
      rw [hfind] at h2
      exact (Option.some.inj h2).symm
    subst hae
    rw [if_pos (by simpa using h), removeFirstPlayer_of_absent habs]
  · rw [if_neg (by simpa using h)]

theorem mapIdx_eq_map_of_const {f : Nat → Player → GamePlayer} {g : Player → GamePlayer}
    (h : ∀ i p, f i p = g p) (ps : List Player) : ps.mapIdx f = ps.map g := by
  induction ps generalizing f with
  | nil => simp
  | cons p t ih =>
    rw [List.mapIdx_cons, h 0 p, List.map_cons, ih (fun i p => h (i + 1) p)]

theorem rosterOf_cons_cons (p0 p1 : Player) (rest : List Player) :
    rosterOf (p0 :: p1 :: rest) =
      { name := p0.name, socketId := p0.socketId, symbol := "X" } ::
      { name := p1.name, socketId := p1.socketId, symbol := "O" } ::
      rest.map (fun p => { name := p.name, socketId := p.socketId, symbol := "O" }) := by
  unfold rosterOf
  rw [List.mapIdx_cons, List.mapIdx_cons]
  rw [mapIdx_eq_map_of_const (g := fun p => { name := p.name, socketId := p.socketId, symbol := "O" })]
  · rfl
  · intro i p
    have hz : (i + 1 + 1 == 0) = false := by
      rw [beq_eq_false_iff_ne]
      omega
    simp [hz]

/-!  ## State projections of the transport operations -/

theorem rooms_leaveGroup (st : ServerState) (sid r : String) :
    (leaveGroup st sid r).rooms = st.rooms := rfl

theorem clock_leaveGroup (st : ServerState) (sid r : String) :
    (leaveGroup st sid r).clock = st.clock := rfl

theorem rooms_joinGroup (st : ServerState) (sid r : String) :
    (joinGroup st sid r).rooms = st.rooms := by
  simp only [joinGroup]
  split <;> rfl

theorem clock_joinGroup (st : ServerState) (sid r : String) :
    (joinGroup st sid r).clock = st.clock := by
  simp only [joinGroup]
  split <;> rfl

/-!  ## Preservation of the registry invariant -/

theorem RegistryInv_addCreate {rs : List GameRoom} (rid : String) (p : Player) (now : Nat)
    (hInv : RegistryInv rs) :
    RegistryInv (addPlayerToRoom
      (if roomExists rs rid then rs else createRoom rs rid now) rid p) := by
  cases hex : roomExists rs rid with
  | true =>
    rw [if_pos rfl]
    refine ⟨?_, by unfold RegistryWF; rw [ids_addPlayerToRoom]; exact hInv.2⟩
    intro r hr
    rcases List.mem_map.mp hr with ⟨a, ha, rfl⟩
    by_cases h : a.id = rid
    · simp [h]
    · have hne : (a.id == rid) = false := by rw [beq_eq_false_iff_ne]; exact h
      simp only [hne, Bool.false_eq_true, if_false]
      exact hInv.1 a ha
  | false =>
    rw [if_neg (by simp)]
    have hfresh : ∀ r ∈ rs, r.id ≠ rid := (roomExists_false_iff rs rid).mp hex
    have hany : (rs.any (fun r =>
        r.id == (GameRoom.mk rid [] none now).id)) = false := by
      rw [List.any_eq_false]
      intro r hr
      simpa using hfresh r hr
    unfold createRoom setRoom
    rw [if_neg (by simp [hany])]
    constructor
    · intro r hr
      unfold addPlayerToRoom at hr
      rcases List.mem_map.mp hr with ⟨a, ha, rfl⟩
      by_cases h : a.id = rid
      · simp [h]
      · have hne : (a.id == rid) = false := by rw [beq_eq_false_iff_ne]; exact h
        simp only [hne, Bool.false_eq_true, if_false]
        rcases List.mem_append.mp ha with h2 | h2
        · exact hInv.1 a h2
        · exfalso
          apply h
          have : a = GameRoom.mk rid [] none now := by simpa using h2
          rw [this]
    · unfold RegistryWF
      rw [ids_addPlayerToRoom, List.map_append, List.nodup_append]
      refine ⟨hInv.2, by simp, ?_⟩
      intro x hx hx2
      rcases List.mem_map.mp hx with ⟨a, ha, rfl⟩
      have : a.id = rid := by simpa using hx2
      exact hfresh a ha this

theorem RegistryInv_removeKeep (rs : List GameRoom) (rid sid : String)
    (hInv : RegistryInv rs)
    (hpos : getRoomPlayers (removePlayerFromRoom rs rid sid) rid ≠ []) :
    RegistryInv (removePlayerFromRoom rs rid sid) := by
  have hwf : RegistryWF (removePlayerFromRoom rs rid sid) := by
    unfold RegistryWF
    rw [ids_removePlayerFromRoom]
    exact hInv.2
  refine ⟨?_, hwf⟩
  intro r hr
  by_cases h : r.id = rid
  · rw [getRoomPlayers_eq_of_mem hwf hr h] at hpos
    exact hpos
  · rcases List.mem_map.mp hr with ⟨a, ha, rfl⟩
    by_cases h2 : a.id = rid
    · exfalso
      apply h
      simp [h2]
    · have hne : (a.id == rid) = false := by rw [beq_eq_false_iff_ne]; exact h2
      simp only [hne, Bool.false_eq_true, if_false]
      exact hInv.1 a ha

theorem RegistryInv_removeDelete (rs : List GameRoom) (rid sid : String)
    (hInv : RegistryInv rs) :
    RegistryInv (deleteRoom (removePlayerFromRoom rs rid sid) rid) := by
  have hsub : (deleteRoom (removePlayerFromRoom rs rid sid) rid).Sublist
      (removePlayerFromRoom rs rid sid) := List.filter_sublist _
  constructor
  · intro r hr
    have hrid : (r.id == rid) = false := by
      have h2 := (List.mem_filter.mp hr).2
      simpa using h2
    have hrmem : r ∈ removePlayerFromRoom rs rid sid := hsub.subset hr
    rcases List.mem_map.mp hrmem with ⟨a, ha, rfl⟩
    by_cases h2 : a.id = rid
    · exfalso
      have hpos : (a.id == rid) = true := by simpa using h2
      unfold removePlayerFromRoom at hrid
      simp only [hpos, if_true] at hrid
      simp [h2] at hrid
    · have hne : (a.id == rid) = false := by rw [beq_eq_false_iff_ne]; exact h2
      simp only [hne, Bool.false_eq_true, if_false] at hr ⊢
      exact hInv.1 a ha
  · unfold RegistryWF
    refine List.Nodup.sublist (hsub.map (fun r => r.id)) ?_
    rw [ids_removePlayerFromRoom]
    exact hInv.2

theorem rooms_handleConnect (st : ServerState) (sid : String) :
    (handleConnect st sid).1.rooms = st.rooms := rfl

theorem rooms_handleSendMessage (st : ServerState) (sid : String) (a b c : Option String) :
    (handleSendMessage st sid a b c).1.rooms = st.rooms := by
  unfold handleSendMessage
  cases truthyStr a with
  | none => rfl
  | some rid =>
    cases truthyStr c with
    | none => rfl
    | some msg =>
      dsimp only
      by_cases h : roomExists st.rooms rid = true
      · rw [if_pos h]
      · rw [if_neg h]

theorem rooms_handleGameStart (st : ServerState) (sid : String) (a b c : Option String) :
    (handleGameStart st sid a b c).1.rooms = st.rooms := by
  unfold handleGameStart
  cases truthyStr a with
  | none => rfl
  | some rid =>
    cases truthyStr c with
    | none => rfl
    | some gt =>
      dsimp only
      cases getRoomPlayers st.rooms rid with
      | nil => rfl
      | cons p0 t =>
        cases t with
        | nil => rfl
        | cons p1 rest => rfl

theorem rooms_handleGameMove (st : ServerState) (sid : String) (a b c d : Option String) :
    (handleGameMove st sid a b c d).1.rooms = st.rooms := by
  unfold handleGameMove
  cases truthyStr a with
  | none => rfl
  | some rid =>
    cases truthyStr c with
    | none => rfl
    | some board => rfl

theorem rooms_handleGameReset (st : ServerState) (sid : String) (a b : Option String) :
    (handleGameReset st sid a b).1.rooms = st.rooms := by
  unfold handleGameReset
  cases truthyStr a with
  | none => rfl
  | some rid => rfl

theorem RegistryInv_joinTail (st1 : ServerState) (sid rid name : String)
    (hInv : RegistryInv st1.rooms) :
    RegistryInv (addPlayerToRoom
      (joinGroup (if roomExists st1.rooms rid then st1
        else { st1 with rooms := createRoom st1.rooms rid st1.clock }) sid rid).rooms rid
      { socketId := sid, name := name,
        joinedAt := (joinGroup (if roomExists st1.rooms rid then st1
          else { st1 with rooms := createRoom st1.rooms rid st1.clock }) sid rid).clock }) := by
  rw [rooms_joinGroup, clock_joinGroup, apply_ite (fun s : ServerState => s.rooms),
    apply_ite (fun s : ServerState => s.clock)]
  dsimp only
  rw [ite_self]
  exact RegistryInv_addCreate rid _ st1.clock hInv

theorem RegistryInv_handleJoinRoom (st : ServerState) (sid : String) (a b : Option String)
    (hInv : RegistryInv st.rooms) :
    RegistryInv (handleJoinRoom st sid a b).1.rooms := by
  unfold handleJoinRoom
  cases truthyStr a with
  | none => exact hInv
  | some rid =>
    cases truthyStr b with
    | none => exact hInv
    | some name =>
      dsimp only
      apply RegistryInv_joinTail
      by_cases h1 : (roomsOf st sid).length > 1
      · rw [if_pos h1]
        cases (roomsOf st sid).find? (fun room => !(room == sid)) with
        | some prev => exact hInv
        | none => exact hInv
      · rw [if_neg h1]
        exact hInv

theorem RegistryInv_handleLeaveRoom (st : ServerState) (sid : String) (a b : Option String)
    (hInv : RegistryInv st.rooms) :
    RegistryInv (handleLeaveRoom st sid a b).1.rooms := by
  unfold handleLeaveRoom
  cases truthyStr a with
  | none => exact hInv
  | some rid =>
    dsimp only
    by_cases hex : roomExists st.rooms rid = true
    · rw [if_pos hex]
      by_cases hp :
          (getRoomPlayers (removePlayerFromRoom (leaveGroup st sid rid).rooms rid sid) rid).length > 0
      · rw [if_pos hp]
        exact RegistryInv_removeKeep _ _ _ hInv (List.length_pos.mp hp)
      · rw [if_neg hp]
        exact RegistryInv_removeDelete _ _ _ hInv
    · rw [if_neg hex]
      exact hInv

theorem RegistryInv_disconnectLoop (sid : String) (snapshot : List GameRoom) :
    ∀ (st : ServerState) (ems : List Emission), RegistryInv st.rooms →
      RegistryInv (disconnectLoop sid snapshot st ems).1.rooms := by
  induction snapshot with
  | nil =>
    intro st ems h
    exact h
  | cons room rest ih =>
    intro st ems h
    unfold disconnectLoop
    cases room.players.find? (fun p => p.socketId == sid) with
    | none => exact ih st ems h
    | some player =>
      dsimp only
      by_cases hp :
          (getRoomPlayers (removePlayerFromRoom st.rooms room.id sid) room.id).length > 0
      · rw [if_pos hp]
        exact ih _ _ (RegistryInv_removeKeep _ _ _ h (List.length_pos.mp hp))
      · rw [if_neg hp]
        exact ih _ _ (RegistryInv_removeDelete _ _ _ h)

theorem RegistryInv_step (st : ServerState) (ev : InEvent) (h : RegistryInv st.rooms) :
    RegistryInv (step st ev).1.rooms := by
  cases ev with
  | connect sid => exact h
  | joinRoom sid a b => exact RegistryInv_handleJoinRoom st sid a b h
  | sendMessage sid a b c =>
    show RegistryInv (handleSendMessage st sid a b c).1.rooms
    rw [rooms_handleSendMessage]
    exact h
  | leaveRoom sid a b => exact RegistryInv_handleLeaveRoom st sid a b h
  | gameStart sid a b c =>
    show RegistryInv (handleGameStart st sid a b c).1.rooms
    rw [rooms_handleGameStart]
    exact h
  | gameMove sid a b c d =>
    show RegistryInv (handleGameMove st sid a b c d).1.rooms
    rw [rooms_handleGameMove]
    exact h
  | gameReset sid a b =>
    show RegistryInv (handleGameReset st sid a b).1.rooms
    rw [rooms_handleGameReset]
    exact h
  | disconnect sid => exact RegistryInv_disconnectLoop sid st.rooms st [] h

theorem RegistryInv_run (evs : List InEvent) :
    ∀ st : ServerState, RegistryInv st.rooms → RegistryInv (run st evs).rooms := by
  induction evs with
  | nil =>
    intro st h
    exact h
  | cons e t ih =>
    intro st h
    exact ih _ (RegistryInv_step st e h)

/-!  ## The claims -/

/-- C1: the claim says a connection appears in the players list of at most
one registry room, and that joining room B while a member of room A leaves
membership in B only.  The code violates this: `join_room` calls only
`socket.leave(previousRoom)` on the transport group and never
`removePlayerFromRoom`, so after s1 joins room A and then room B, s1 is
still in room A's registry players list while also in room B's.  This
closed computation runs that event sequence and exhibits the double
membership. -/
theorem joinRoom_leaves_stale_registry_membership :
    ((getRoomPlayers (run init [InEvent.connect "s1",
        InEvent.joinRoom "s1" (some "A") (some "Ann"),
        InEvent.joinRoom "s1" (some "B") (some "Ann")]).rooms "A").any
      (fun p => p.socketId == "s1")
    && (getRoomPlayers (run init [InEvent.connect "s1",
        InEvent.joinRoom "s1" (some "A") (some "Ann"),
        InEvent.joinRoom "s1" (some "B") (some "Ann")]).rooms "B").any
      (fun p => p.socketId == "s1")) = true := by
  decide

/-- C2: the claim says no room's players list ever holds two entries with
the same socket id.  The code violates it: sending `join_room` twice for
the same room from the same socket pushes a second entry (the handler's
forced leave touches only the transport group, and `addPlayerToRoom` does
not check for duplicates).  This closed computation runs that event
sequence and shows room A holding two entries for s1. -/
theorem joinRoom_twice_duplicates_entry :
    (getRoomPlayers (run init [InEvent.connect "s1",
        InEvent.joinRoom "s1" (some "A") (some "Ann"),
        InEvent.joinRoom "s1" (some "A") (some "Ann")]).rooms "A").map
      (fun p => p.socketId) = ["s1", "s1"] := by
  decide

/-- C3: after any sequence of handled events starting from the initial
state, a room id is present in the registry exactly when its players list
is non-empty — a room whose last player departs is deleted within the same
handler invocation, so an empty room is never observable between events. -/
theorem room_present_iff_nonempty (evs : List InEvent) (rid : String) :
    roomExists (run init evs).rooms rid = true ↔
      getRoomPlayers (run init evs).rooms rid ≠ [] := by
  have hInv : RegistryInv (run init evs).rooms :=
    RegistryInv_run evs init ⟨by simp [init], by simp [RegistryWF, init]⟩
  constructor
  · intro h
    rcases (roomExists_true_iff _ _).mp h with ⟨r, hr, hid⟩
    rw [getRoomPlayers_eq_of_mem hInv.2 hr hid]
    exact hInv.1 r hr
  · intro h
    cases hex : roomExists (run init evs).rooms rid with
    | true => rfl
    | false =>
      exfalso
      apply h
      have hnone : findRoom (run init evs).rooms rid = none := by
        unfold roomExists at hex
        cases hfr : findRoom (run init evs).rooms rid with
        | none => rfl
        | some r =>
          rw [hfr] at hex
          simp at hex
      unfold getRoomPlayers
      rw [hnone]

/-- C6: `game_start` with a missing (or empty, hence falsy) `roomId` or
`gameType`, or with a referenced room holding fewer than two players
(including an absent room, whose player list reads back empty), emits
nothing at all — no event to any connection, no error acknowledgment — and
leaves the whole server state unchanged. -/
theorem gameStart_silent_cases (st : ServerState) (sid : String)
    (roomId? playerName? gameType? : Option String)
    (h : truthyStr roomId? = none ∨ truthyStr gameType? = none ∨
      ∃ rid, truthyStr roomId? = some rid ∧ (getRoomPlayers st.rooms rid).length < 2) :
    handleGameStart st sid roomId? playerName? gameType? = (st, []) := by
  unfold handleGameStart
  rcases h with h | h | ⟨rid, hr, hlen⟩
  · rw [h]
  · cases hh : truthyStr roomId? with
    | none => rfl
    | some rid =>
      rw [h]
  · rw [hr]
    cases hh : truthyStr gameType? with
    | none => rfl
    | some gt =>
      dsimp only
      cases hps : getRoomPlayers st.rooms rid with
      | nil => rfl
      | cons p0 t =>
        cases t with
        | nil => rfl
        | cons p1 rest =>
          exfalso
          rw [hps] at hlen
          simp only [List.length_cons] at hlen
          omega

/-- Witness for C6: `game_start` for a room that does not exist (zero
players) from the initial state is a complete no-op. -/
theorem gameStart_silent_cases_witness :
    handleGameStart init "s1" (some "R") none (some "tic") = (init, []) :=
  gameStart_silent_cases init "s1" (some "R") none (some "tic")
    (Or.inr (Or.inr ⟨"R", by decide, by decide⟩))

/-- C7: for `join_room`, `send_message` and `leave_room`, a missing (or
empty, hence falsy) required field produces exactly one error response to
the acting connection — `join_room_response`, `message_response` or
`leave_room_response` with status "error" — with no broadcast to any room
and the whole server state unchanged. -/
theorem missing_field_errors :
    (∀ (st : ServerState) (sid : String) (roomId? playerName? : Option String),
      truthyStr roomId? = none ∨ truthyStr playerName? = none →
      handleJoinRoom st sid roomId? playerName? =
        (st, [(Target.toSocket sid,
          OutEvent.joinRoomResponse "error" none none "Room ID and player name are required")]))
  ∧ (∀ (st : ServerState) (sid : String) (roomId? playerName? message? : Option String),
      truthyStr roomId? = none ∨ truthyStr message? = none →
      handleSendMessage st sid roomId? playerName? message? =
        (st, [(Target.toSocket sid,
          OutEvent.messageResponse "error" "Room ID and message content are required")]))
  ∧ (∀ (st : ServerState) (sid : String) (roomId? playerName? : Option String),
      truthyStr roomId? = none →
      handleLeaveRoom st sid roomId? playerName? =
        (st, [(Target.toSocket sid,
          OutEvent.leaveRoomResponse "error" "Room ID is required")])) := by
  refine ⟨?_, ?_, ?_⟩
  · intro st sid a b h
    unfold handleJoinRoom
    rcases h with h | h
    · rw [h]
    · cases hh : truthyStr a with
      | none => rfl
      | some rid =>
        rw [h]
  · intro st sid a b c h
    unfold handleSendMessage
    rcases h with h | h
    · rw [h]
    · cases hh : truthyStr a with
      | none => rfl
      | some rid =>
        rw [h]
  · intro st sid a b h
    unfold handleLeaveRoom
    rw [h]

/-- Witness for C7: the three error acknowledgments at concrete inputs —
an absent `roomId` for `join_room`, an empty-string `message` for
`send_message`, and an empty-string `roomId` for `leave_room`. -/
theorem missing_field_errors_witness :
    handleJoinRoom init "s1" none (some "Ann") =
      (init, [(Target.toSocket "s1",
        OutEvent.joinRoomResponse "error" none none "Room ID and player name are required")])
  ∧ handleSendMessage init "s1" (some "R") (some "Ann") (some "") =
      (init, [(Target.toSocket "s1",
        OutEvent.messageResponse "error" "Room ID and message content are required")])
  ∧ handleLeaveRoom init "s1" (some "") (some "Ann") =
      (init, [(Target.toSocket "s1",
        OutEvent.leaveRoomResponse "error" "Room ID is required")]) :=
  ⟨missing_field_errors.1 init "s1" none (some "Ann") (Or.inl rfl),
   missing_field_errors.2.1 init "s1" (some "R") (some "Ann") (some "") (Or.inr (by decide)),
   missing_field_errors.2.2 init "s1" (some "") (some "Ann") (by decide)⟩

/-- The `game_start` handler on a room with two or more players: it emits
exactly two `game_start` events, one addressed to the first player in the
list and one to the second, both carrying the `rosterOf` the whole player
list, with `playerSymbol` X for the first recipient and O for the second.
The sender and the `playerName` field play no role. -/
theorem handleGameStart_eq (st : ServerState) (sid rid gt : String) (n? : Option String)
    (hr : rid ≠ "") (hg : gt ≠ "") (p0 p1 : Player) (rest : List Player)
    (hp : getRoomPlayers st.rooms rid = p0 :: p1 :: rest) :
    handleGameStart st sid (some rid) n? (some gt) =
      (st,
       [(Target.toRoom p0.socketId, OutEvent.gameStart gt (rosterOf (p0 :: p1 :: rest)) "X"),
        (Target.toRoom p1.socketId, OutEvent.gameStart gt (rosterOf (p0 :: p1 :: rest)) "O")]) := by
  unfold handleGameStart
  rw [truthyStr_some hr, truthyStr_some hg]
  dsimp only
  rw [hp]

/-- C4 counterexample: the claim says `game_start` on a room with at least
two players sends every player in the room a payload.  The code emits only
to `players[0]` and `players[1]`: in a reachable three-player room, the
third player (socket s3, a member of room R) is the recipient of none of
the emissions. -/
theorem gameStart_skips_third_player :
    let stR := run init [InEvent.connect "s1", InEvent.joinRoom "s1" (some "R") (some "Ann"),
      InEvent.connect "s2", InEvent.joinRoom "s2" (some "R") (some "Bob"),
      InEvent.connect "s3", InEvent.joinRoom "s3" (some "R") (some "Cara")]
    (getRoomPlayers stR.rooms "R").length = 3
    ∧ (getRoomPlayers stR.rooms "R").any (fun p => p.socketId == "s3") = true
    ∧ ((handleGameStart stR "s1" (some "R") none (some "tic")).2.all
        (fun em => !(deliveredTo stR em "s3"))) = true := by
  decide

/-- C4 (amended): `game_start` with non-empty `roomId` and `gameType` on a
room with at least two players sends the FIRST TWO players in join order —
and only them — each an individual `game_start` payload carrying the full
roster with symbols (index 0 labelled X, every later index labelled O)
together with the recipient's own symbol (X for the first player, O for
the second); the state is unchanged.  Players beyond the first two are
sent nothing (the emission list has exactly these two entries). -/
theorem gameStart_first_two_players (st : ServerState) (sid rid gt : String)
    (n? : Option String) (hr : rid ≠ "") (hg : gt ≠ "") (p0 p1 : Player) (rest : List Player)
    (hp : getRoomPlayers st.rooms rid = p0 :: p1 :: rest) :
    handleGameStart st sid (some rid) n? (some gt) =
      (st,
       [(Target.toRoom p0.socketId, OutEvent.gameStart gt
           ({ name := p0.name, socketId := p0.socketId, symbol := "X" } ::
            { name := p1.name, socketId := p1.socketId, symbol := "O" } ::
            rest.map (fun p => { name := p.name, socketId := p.socketId, symbol := "O" })) "X"),
        (Target.toRoom p1.socketId, OutEvent.gameStart gt
           ({ name := p0.name, socketId := p0.socketId, symbol := "X" } ::
            { name := p1.name, socketId := p1.socketId, symbol := "O" } ::
            rest.map (fun p => { name := p.name, socketId := p.socketId, symbol := "O" })) "O")]) := by
  rw [handleGameStart_eq st sid rid gt n? hr hg p0 p1 rest hp, rosterOf_cons_cons]

/-- Witness for the amended C4: a three-player room; the first two players
get the payloads, the roster labels Cara (index 2) with O, and nothing is
addressed to her. -/
theorem gameStart_first_two_players_witness :
    handleGameStart
        (ServerState.mk
          [GameRoom.mk "R"
            [Player.mk "a" "Ann" 0, Player.mk "b" "Bob" 0, Player.mk "c" "Cara" 0] none 0]
          [] 5)
        "z" (some "R") none (some "tictactoe") =
      (ServerState.mk
          [GameRoom.mk "R"
            [Player.mk "a" "Ann" 0, Player.mk "b" "Bob" 0, Player.mk "c" "Cara" 0] none 0]
          [] 5,
       [(Target.toRoom "a", OutEvent.gameStart "tictactoe"
           [GamePlayer.mk "Ann" "a" "X", GamePlayer.mk "Bob" "b" "O",
            GamePlayer.mk "Cara" "c" "O"] "X"),
        (Target.toRoom "b", OutEvent.gameStart "tictactoe"
           [GamePlayer.mk "Ann" "a" "X", GamePlayer.mk "Bob" "b" "O",
            GamePlayer.mk "Cara" "c" "O"] "O")]) :=
  gameStart_first_two_players _ "z" "R" "tictactoe" none (by decide) (by decide)
    (Player.mk "a" "Ann" 0) (Player.mk "b" "Bob" 0) [Player.mk "c" "Cara" 0] (by decide)

/-- C5: `game_start` with non-empty `roomId` and `gameType` on a room with
exactly two players sends X to the player that was added to the room first
(list position 0 — `addPlayerToRoom` appends and removal keeps order, so
list order is join order) and O to the player added second, and the result
is the same whichever connection sent the event and whatever its
`playerName` field held. -/
theorem gameStart_two_player_symbols (st : ServerState) (sid sid' rid gt : String)
    (n? n?' : Option String) (p0 p1 : Player)
    (hr : rid ≠ "") (hg : gt ≠ "")
    (hp : getRoomPlayers st.rooms rid = [p0, p1]) :
    handleGameStart st sid (some rid) n? (some gt) =
      (st,
       [(Target.toRoom p0.socketId, OutEvent.gameStart gt
           [{ name := p0.name, socketId := p0.socketId, symbol := "X" },
            { name := p1.name, socketId := p1.socketId, symbol := "O" }] "X"),
        (Target.toRoom p1.socketId, OutEvent.gameStart gt
           [{ name := p0.name, socketId := p0.socketId, symbol := "X" },
            { name := p1.name, socketId := p1.socketId, symbol := "O" }] "O")])
    ∧ handleGameStart st sid (some rid) n? (some gt) =
        handleGameStart st sid' (some rid) n?' (some gt) := by
  constructor
  · rw [handleGameStart_eq st sid rid gt n? hr hg p0 p1 [] hp, rosterOf_cons_cons]
    simp
  · rw [handleGameStart_eq st sid rid gt n? hr hg p0 p1 [] hp,
      handleGameStart_eq st sid' rid gt n?' hr hg p0 p1 [] hp]

/-- Witness for C5: Ann then Bob join room R through the real handlers;
`game_start` sent by Bob's socket still gives Ann (added first) the X. -/
theorem gameStart_two_player_symbols_witness :
    handleGameStart
        (run init [InEvent.connect "a", InEvent.joinRoom "a" (some "R") (some "Ann"),
          InEvent.connect "b", InEvent.joinRoom "b" (some "R") (some "Bob")])
        "b" (some "R") (some "Bob") (some "tic") =
      (run init [InEvent.connect "a", InEvent.joinRoom "a" (some "R") (some "Ann"),
          InEvent.connect "b", InEvent.joinRoom "b" (some "R") (some "Bob")],
       [(Target.toRoom "a", OutEvent.gameStart "tic"
           [GamePlayer.mk "Ann" "a" "X", GamePlayer.mk "Bob" "b" "O"] "X"),
        (Target.toRoom "b", OutEvent.gameStart "tic"
           [GamePlayer.mk "Ann" "a" "X", GamePlayer.mk "Bob" "b" "O"] "O")])
    ∧ handleGameStart
        (run init [InEvent.connect "a", InEvent.joinRoom "a" (some "R") (some "Ann"),
          InEvent.connect "b", InEvent.joinRoom "b" (some "R") (some "Bob")])
        "b" (some "R") (some "Bob") (some "tic") =
      handleGameStart
        (run init [InEvent.connect "a", InEvent.joinRoom "a" (some "R") (some "Ann"),
          InEvent.connect "b", InEvent.joinRoom "b" (some "R") (some "Bob")])
        "a" (some "R") (some "Ann") (some "tic") :=
  gameStart_two_player_symbols _ "b" "a" "R" "tic" (some "Bob") (some "Ann")
    (Player.mk "a" "Ann" 1) (Player.mk "b" "Bob" 3) (by decide) (by decide) (by decide)

/-- C8: `send_message` with a non-empty `roomId` naming an existing room
and a non-empty `message` emits exactly one `receive_message` event — with
`senderId` the sender's connection id, `senderName` the (unvalidated)
`playerName` field, `content` the message, the current timestamp and the
`roomId` — addressed to the room's transport group, hence delivered to
exactly the connections that are members of the group (the sender
included, since it is a member); the whole server state, the registry in
particular, is unchanged. -/
theorem sendMessage_broadcast (st : ServerState) (sid rid msg : String) (n? : Option String)
    (hr : rid ≠ "") (hm : msg ≠ "") (hex : roomExists st.rooms rid = true) :
    handleSendMessage st sid (some rid) n? (some msg) =
      (st, [(Target.toRoom rid, OutEvent.receiveMessage sid n? msg st.clock rid)])
    ∧ ∀ x : String,
        deliveredTo st (Target.toRoom rid, OutEvent.receiveMessage sid n? msg st.clock rid) x =
          (roomsOf st x).contains rid := by
  constructor
  · unfold handleSendMessage
    rw [truthyStr_some hr, truthyStr_some hm]
    dsimp only
    rw [if_pos hex]
  · intro x
    rfl

/-- Witness for C8: Ann and Bob both join room R1 through the real
handlers; Ann's "hi" is handled as exactly one `receive_message` with
content "hi" and senderName "Ann", delivered to both Ann and Bob. -/
theorem sendMessage_broadcast_witness :
    let stAB := run init [InEvent.connect "a", InEvent.connect "b",
      InEvent.joinRoom "a" (some "R1") (some "Ann"),
      InEvent.joinRoom "b" (some "R1") (some "Bob")]
    (handleSendMessage stAB "a" (some "R1") (some "Ann") (some "hi") =
       (stAB, [(Target.toRoom "R1",
         OutEvent.receiveMessage "a" (some "Ann") "hi" stAB.clock "R1")])
     ∧ ∀ x : String, deliveredTo stAB (Target.toRoom "R1",
         OutEvent.receiveMessage "a" (some "Ann") "hi" stAB.clock "R1") x =
           (roomsOf stAB x).contains "R1")
    ∧ deliveredTo stAB (Target.toRoom "R1",
        OutEvent.receiveMessage "a" (some "Ann") "hi" stAB.clock "R1") "a" = true
    ∧ deliveredTo stAB (Target.toRoom "R1",
        OutEvent.receiveMessage "a" (some "Ann") "hi" stAB.clock "R1") "b" = true :=
  ⟨sendMessage_broadcast _ "a" "R1" "hi" (some "Ann") (by decide) (by decide) (by decide),
   by decide, by decide⟩

/-- C10: `leave_room` for an existing, non-empty room whose players list
does not contain the sending connection still answers the sender with a
success `leave_room_response` and still broadcasts a `player_left` event
to the room's group, carrying the supplied `playerName` in the message and
the unchanged roster and player count; the registry is not modified (only
the sender's transport-group membership is dropped, which is what
`leaveGroup` in the result state records). -/
theorem leaveRoom_nonmember (st : ServerState) (sid rid : String) (n? : Option String)
    (hwf : RegistryWF st.rooms) (hr : rid ≠ "")
    {r : GameRoom} (hfind : findRoom st.rooms rid = some r)
    (hne : r.players ≠ [])
    (habs : ∀ p ∈ r.players, p.socketId ≠ sid) :
    handleLeaveRoom st sid (some rid) n? =
      (leaveGroup st sid rid,
       [(Target.toRoom rid,
         OutEvent.playerLeft rid r.players (jsShow n? ++ " has left the room")
           r.players.length),
        (Target.toSocket sid,
         OutEvent.leaveRoomResponse "success" ("You have left room " ++ rid))]) := by
  have hexists : roomExists st.rooms rid = true := by
    unfold roomExists
    rw [hfind]
    rfl
  have hrem : removePlayerFromRoom st.rooms rid sid = st.rooms :=
    removePlayerFromRoom_of_absent hwf hfind habs
  have hplayers : getRoomPlayers st.rooms rid = r.players := by
    unfold getRoomPlayers
    rw [hfind]
  unfold handleLeaveRoom
  rw [truthyStr_some hr]
  dsimp only
  rw [if_pos hexists, rooms_leaveGroup, hrem, hplayers,
    if_pos (List.length_pos.mpr hne)]
  rfl

/-- Witness for C10: Bob is alone in room R1; a socket z that never joined
sends `leave_room` with playerName "Mallory" — the room broadcast and the
success acknowledgment still happen, the roster is unchanged. -/
theorem leaveRoom_nonmember_witness :
    let stB := run init [InEvent.connect "b", InEvent.joinRoom "b" (some "R1") (some "Bob")]
    handleLeaveRoom stB "z" (some "R1") (some "Mallory") =
      (leaveGroup stB "z" "R1",
       [(Target.toRoom "R1",
         OutEvent.playerLeft "R1" [Player.mk "b" "Bob" 1] "Mallory has left the room" 1),
        (Target.toSocket "z",
         OutEvent.leaveRoomResponse "success" "You have left room R1")]) :=
  leaveRoom_nonmember _ "z" "R1" (some "Mallory") (by decide) (by decide)
    (r := GameRoom.mk "R1" [Player.mk "b" "Bob" 1] none 1)
    (by decide) (by decide) (by decide)

/-!  ## The disconnect handler, room by room

The loop of the `disconnect` handler iterates over the `getAllRooms()`
snapshot while mutating the live registry; with unique room ids each
iteration touches exactly the snapshot entry's own room, so the whole loop
equals the per-room description `disconnectSpec` and `disconnectEmits`. -/

theorem wf_parts {xs ys : List GameRoom} {r : GameRoom}
    (hwf : RegistryWF (xs ++ r :: ys)) :
    (∀ x ∈ xs, x.id ≠ r.id) ∧ (∀ y ∈ ys, y.id ≠ r.id) := by
  unfold RegistryWF at hwf
  rw [List.map_append, List.map_cons, List.nodup_append] at hwf
  obtain ⟨hxs, hcons, hdisj⟩ := hwf
  constructor
  · intro x hx heq
    exact hdisj (List.mem_map_of_mem _ hx) (by rw [heq]; exact List.mem_cons_self _ _)
  · intro y hy heq
    apply (List.nodup_cons.mp hcons).1
    rw [← heq]
    exact List.mem_map_of_mem _ hy

theorem wf_replace {xs ys : List GameRoom} {r s : GameRoom} (hid : s.id = r.id)
    (hwf : RegistryWF (xs ++ r :: ys)) : RegistryWF (xs ++ s :: ys) := by
  unfold RegistryWF at *
  rw [List.map_append, List.map_cons] at *
  rw [hid]
  exact hwf

theorem wf_drop {xs ys : List GameRoom} {r : GameRoom}
    (hwf : RegistryWF (xs ++ r :: ys)) : RegistryWF (xs ++ ys) := by
  unfold RegistryWF at *
  rw [List.map_append] at *
  rw [List.map_cons] at hwf
  exact List.Nodup.sublist
    (List.Sublist.append_left ((List.Sublist.refl _).cons _) _) hwf

theorem findRoom_decomp (xs ys : List GameRoom) (r : GameRoom) (rid : String)
    (hid : r.id = rid) (hx : ∀ x ∈ xs, x.id ≠ rid) :
    findRoom (xs ++ r :: ys) rid = some r := by
  unfold findRoom
  induction xs with
  | nil => exact List.find?_cons_of_pos _ (by simp [hid])
  | cons x t ih =>
    have hxid : (x.id == rid) = false := by
      rw [beq_eq_false_iff_ne]
      exact hx x (List.mem_cons_self x t)
    rw [List.cons_append, List.find?_cons_of_neg _ (by simp [hxid])]
    exact ih (fun a ha => hx a (List.mem_cons_of_mem x ha))

theorem removePlayerFromRoom_decomp (xs ys : List GameRoom) (r : GameRoom) (rid sid : String)
    (hid : r.id = rid) (hx : ∀ x ∈ xs, x.id ≠ rid) (hy : ∀ y ∈ ys, y.id ≠ rid) :
    removePlayerFromRoom (xs ++ r :: ys) rid sid =
      xs ++ { r with players := removeFirstPlayer r.players sid } :: ys := by
  unfold removePlayerFromRoom
  rw [List.map_append, List.map_cons]
  congr 1
  · apply map_eq_self_of_eq
    intro a ha
    have hne : (a.id == rid) = false := by
      rw [beq_eq_false_iff_ne]
      exact hx a ha
    simp [hne]
  · congr 1
    · simp [hid]
    · apply map_eq_self_of_eq
      intro a ha
      have hne : (a.id == rid) = false := by
        rw [beq_eq_false_iff_ne]
        exact hy a ha
      simp [hne]

theorem deleteRoom_decomp (xs ys : List GameRoom) (r : GameRoom) (rid : String)
    (hid : r.id = rid) (hx : ∀ x ∈ xs, x.id ≠ rid) (hy : ∀ y ∈ ys, y.id ≠ rid) :
    deleteRoom (xs ++ r :: ys) rid = xs ++ ys := by
  unfold deleteRoom
  have hxf : xs.filter (fun a => !(a.id == rid)) = xs := by
    rw [List.filter_eq_self]
    intro a ha
    have hne : (a.id == rid) = false := by
      rw [beq_eq_false_iff_ne]
      exact hx a ha
    simp [hne]
  have hyf : ys.filter (fun a => !(a.id == rid)) = ys := by
    rw [List.filter_eq_self]
    intro a ha
    have hne : (a.id == rid) = false := by
      rw [beq_eq_false_iff_ne]
      exact hy a ha
    simp [hne]
  rw [List.filter_append, hxf, List.filter_cons]
  have hrid : (!(r.id == rid)) = false := by simp [hid]
  rw [hrid]
  simp [hyf]

theorem disconnectSpec_cons_none {room : GameRoom} {sid : String} (rest : List GameRoom)
    (hfind : room.players.find? (fun p => p.socketId == sid) = none) :
    disconnectSpec (room :: rest) sid = room :: disconnectSpec rest sid := by
  unfold disconnectSpec
  rw [List.filterMap_cons]
  dsimp only
  rw [hfind]

theorem disconnectSpec_cons_some {room : GameRoom} {sid : String} {player : Player}
    (rest : List GameRoom)
    (hfind : room.players.find? (fun p => p.socketId == sid) = some player) :
    disconnectSpec (room :: rest) sid =
      if (removeFirstPlayer room.players sid).length > 0 then
        { room with players := removeFirstPlayer room.players sid } :: disconnectSpec rest sid
      else disconnectSpec rest sid := by
  unfold disconnectSpec
  rw [List.filterMap_cons]
  dsimp only
  rw [hfind]
  dsimp only
  by_cases hlen : (removeFirstPlayer room.players sid).length > 0
  · rw [if_pos hlen, if_pos hlen]
  · rw [if_neg hlen, if_neg hlen]

theorem disconnectEmits_cons_none {room : GameRoom} {sid : String} (rest : List GameRoom)
    (hfind : room.players.find? (fun p => p.socketId == sid) = none) :
    disconnectEmits (room :: rest) sid = disconnectEmits rest sid := by
  unfold disconnectEmits
  rw [List.filterMap_cons]
  dsimp only
  rw [hfind]

theorem disconnectEmits_cons_some {room : GameRoom} {sid : String} {player : Player}
    (rest : List GameRoom)
    (hfind : room.players.find? (fun p => p.socketId == sid) = some player) :
    disconnectEmits (room :: rest) sid =
      if (removeFirstPlayer room.players sid).length > 0 then
        (Target.toRoom room.id,
          OutEvent.playerLeft room.id (removeFirstPlayer room.players sid)
            (player.name ++ " has left the room")
            (removeFirstPlayer room.players sid).length) :: disconnectEmits rest sid
      else disconnectEmits rest sid := by
  unfold disconnectEmits
  rw [List.filterMap_cons]
  dsimp only
  rw [hfind]
  dsimp only
  by_cases hlen : (removeFirstPlayer room.players sid).length > 0
  · rw [if_pos hlen, if_pos hlen]
  · rw [if_neg hlen, if_neg hlen]

theorem disconnectLoop_decomp (sid : String) :
    ∀ (todo done : List GameRoom) (st : ServerState) (ems : List Emission),
      st.rooms = done ++ todo →
      RegistryWF st.rooms →
      disconnectLoop sid todo st ems =
        ({ st with rooms := done ++ disconnectSpec todo sid },
         ems ++ disconnectEmits todo sid) := by
  intro todo
  induction todo with
  | nil =>
    intro done st ems h hwf
    have h2 : done = st.rooms := by simpa using h.symm
    subst h2
    unfold disconnectLoop disconnectSpec disconnectEmits
    simp only [List.filterMap_nil, List.append_nil]
  | cons room rest ih =>
    intro done st ems h hwf
    have hwf2 : RegistryWF (done ++ room :: rest) := by rw [← h]; exact hwf
    obtain ⟨hx, hy⟩ := wf_parts hwf2
    unfold disconnectLoop
    cases hfind : room.players.find? (fun p => p.socketId == sid) with
    | none =>
      rw [ih (done ++ [room]) st ems (by rw [h]; simp) hwf]
      rw [disconnectSpec_cons_none rest hfind, disconnectEmits_cons_none rest hfind]
      simp
    | some player =>
      dsimp only
      have hrem : removePlayerFromRoom st.rooms room.id sid =
          done ++ { room with players := removeFirstPlayer room.players sid } :: rest := by
        rw [h]
        exact removePlayerFromRoom_decomp done rest room room.id sid rfl hx hy
      have hgrp : getRoomPlayers
          (done ++ { room with players := removeFirstPlayer room.players sid } :: rest)
          room.id = removeFirstPlayer room.players sid := by
        unfold getRoomPlayers
        rw [findRoom_decomp done rest
          { room with players := removeFirstPlayer room.players sid } room.id rfl hx]
      rw [hrem, hgrp]
      by_cases hlen : (removeFirstPlayer room.players sid).length > 0
      · rw [if_pos hlen]
        rw [ih (done ++ [{ room with players := removeFirstPlayer room.players sid }]) _ _
          (by simp)
          (wf_replace (r := room)
            (s := { room with players := removeFirstPlayer room.players sid }) rfl hwf2)]
        rw [disconnectSpec_cons_some rest hfind, disconnectEmits_cons_some rest hfind,
          if_pos hlen, if_pos hlen]
        simp
      · rw [if_neg hlen]
        have hdel : deleteRoom
            (done ++ { room with players := removeFirstPlayer room.players sid } :: rest)
            room.id = done ++ rest :=
          deleteRoom_decomp done rest
            { room with players := removeFirstPlayer room.players sid } room.id rfl hx hy
        rw [hdel]
        rw [ih done _ _ rfl (wf_drop hwf2)]
        rw [disconnectSpec_cons_some rest hfind, disconnectEmits_cons_some rest hfind,
          if_neg hlen, if_neg hlen]

/-- C9 (amended): on a well-formed registry, `disconnect` rewrites the
registry to `disconnectSpec` and emits `disconnectEmits`: from every room
containing an entry for the disconnecting socket, the FIRST such entry is
removed (hence the whole membership whenever no room holds duplicate
entries for one socket, which is the intended invariant); every room whose
players list becomes empty is deleted; every room that still has players
gets one `player_left` broadcast with the updated roster and player count;
rooms not containing the socket are untouched and get no event. -/
theorem disconnect_per_room (st : ServerState) (sid : String)
    (hwf : RegistryWF st.rooms) :
    handleDisconnect st sid =
      ({ st with rooms := disconnectSpec st.rooms sid }, disconnectEmits st.rooms sid) := by
  unfold handleDisconnect
  have h := disconnectLoop_decomp sid st.rooms [] st [] (by simp) hwf
  simpa using h

/-- Witness for the amended C9: Ann (socket s1) is one of two occupants of
R1 and the sole occupant of R2; her disconnect keeps R1 with Bob and a
`player_left` broadcast carrying roster [Bob] and count 1, and deletes R2
with no broadcast. -/
theorem disconnect_per_room_witness :
    let st0 := ServerState.mk
      [GameRoom.mk "R1" [Player.mk "s1" "Ann" 0, Player.mk "s2" "Bob" 0] none 0,
       GameRoom.mk "R2" [Player.mk "s1" "Ann" 0] none 0] [] 9
    handleDisconnect st0 "s1" =
      ({ st0 with rooms := disconnectSpec st0.rooms "s1" }, disconnectEmits st0.rooms "s1")
    ∧ disconnectSpec st0.rooms "s1" = [GameRoom.mk "R1" [Player.mk "s2" "Bob" 0] none 0]
    ∧ disconnectEmits st0.rooms "s1" =
        [(Target.toRoom "R1",
          OutEvent.playerLeft "R1" [Player.mk "s2" "Bob" 0] "Ann has left the room" 1)] :=
  ⟨disconnect_per_room _ "s1" (by decide), by decide, by decide⟩

/-- C9 counterexample: the claim says a disconnecting connection is removed
from the players list of every room that contains it.  In the reachable
state where room A holds two entries for s1 (created by sending `join_room`
for A twice, see the C2 violation), the disconnect loop removes only the
first matching entry, so room A still contains an entry for s1 afterwards —
and even broadcasts a `player_left` whose roster still lists s1. -/
theorem disconnect_misses_duplicate_entry :
    let stDup := run init [InEvent.connect "s1",
      InEvent.joinRoom "s1" (some "A") (some "Ann"),
      InEvent.joinRoom "s1" (some "A") (some "Ann")]
    ((getRoomPlayers (handleDisconnect stDup "s1").1.rooms "A").any
      (fun p => p.socketId == "s1")) = true := by
  decide
